import Mathlib

/-!
# socket-cpp : `CTCPServer` (src/Socket/TCPServer.cpp, src/Socket/TCPServer.h)

A shallow embedding of the TCP listener class.  The class talks to the operating
system only through socket calls; every such call is modelled by

* an *outcome* supplied by the environment (a descriptor or a failure, a byte count
  or a failure, ...), turned into the C return value by `sysSocket`, `sysStatus`,
  `sysCount`, and
* a `Call` record appended to the list of platform calls the method performed.

The two preprocessor branches (`#ifdef WINDOWS` / `#else`) are the two values of
`Branch`.  A method whose C++ behaviour is undefined (a read through a null
`m_pResultAddrInfo`) returns `none`.
-/

namespace SocketCpp

/-! ## Platform constants and types -/

/-- The preprocessor branch the unit is compiled for. -/
inductive Branch where
  | windows
  | posix
  deriving DecidableEq, Repr

/-- Modelled from the spec: the invalid-descriptor sentinel `INVALID_SOCKET` of the
absent `Socket.h` / platform headers ("starts as an invalid sentinel"); its value is
`-1`, all bits set, which is also what a failing `socket()` / `accept()` returns. -/
def INVALID_SOCKET : Int := -1

/-- Modelled from the spec: winsock status `SOCKET_ERROR` (absent platform header),
the value a failing `bind`, `listen`, `send`, `shutdown` returns. -/
def SOCKET_ERROR : Int := -1

/-- Modelled from the spec: the log-enable bit `ENABLE_LOG` of the settings
enumeration declared in the absent `Socket.h`. -/
def ENABLE_LOG : Nat := 0x01

def AF_INET : Nat := 2
def SOCK_STREAM : Nat := 1
def IPPROTO_TCP : Nat := 6
def AI_PASSIVE : Nat := 1
def INADDR_ANY : Nat := 0

/-- The platform calls a method can perform, with the arguments that matter. -/
inductive Call where
  /-- Call `socket(af, type, protocol)`, which returned `ret`. -/
  | socket (af ty proto : Nat) (ret : Int)
  /-- Call `bind(fd, ...)`. -/
  | bind (fd : Int)
  /-- Call `listen(fd, SOMAXCONN)`. -/
  | listen (fd : Int)
  /-- Call `accept(fd, ...)`. -/
  | accept (fd : Int)
  /-- Call `closesocket(fd)` (WINDOWS) or `close(fd)`. -/
  | close (fd : Int)
  /-- Call `freeaddrinfo(m_pResultAddrInfo)`. -/
  | freeaddrinfo
  /-- Call `shutdown(fd, SD_RECEIVE)`. -/
  | shutdown (fd : Int)
  /-- Call `recv(fd, pData, uSize, 0)` (WINDOWS) or `read(fd, pData, uSize)`. -/
  | recv (fd : Int) (uSize : Nat)
  /-- Call `send(fd, pData, uSize, 0)` (WINDOWS) or `write(fd, pData, uSize)`. -/
  | send (fd : Int) (uSize : Nat)
  deriving DecidableEq, Repr

/-- Return value of `socket()` / `accept()`: the new descriptor, or the failure
value (`INVALID_SOCKET` on WINDOWS, `-1` elsewhere). -/
def sysSocket : Option Nat → Int
  | some fd => (fd : Int)
  | none => -1

/-- Return value of `bind` / `listen` / `shutdown`: `0`, or the failure value
(`SOCKET_ERROR` on WINDOWS, `-1` elsewhere). -/
def sysStatus (ok : Bool) : Int := if ok then 0 else -1

/-- Return value of `recv` / `read` / `send` / `write`: a byte count, or `-1`. -/
def sysCount : Option Nat → Int
  | some k => (k : Int)
  | none => -1

/-- Conversion of a wider integer to C `int` (32 bits, two's complement). -/
def toInt32 (x : Int) : Int := (x + 2 ^ 31) % 2 ^ 32 - 2 ^ 31

/-- Fields of `struct addrinfo` the listener reads. -/
structure AddrInfo where
  ai_flags : Nat
  ai_family : Nat
  ai_socktype : Nat
  ai_protocol : Nat
  deriving DecidableEq, Repr

/-- Model of `struct sockaddr_in`; `sin_port` holds the 16-bit value in network byte order. -/
structure SockAddrIn where
  sin_family : Nat
  sin_port : Nat
  sin_addr : Nat
  deriving DecidableEq, Repr

/-- Instance state of `CTCPServer` (with the `ASocket` settings it reads).
`m_pResultAddrInfo` / `m_HintsAddrInfo` exist on the WINDOWS branch, `m_ServAddr` on
the other one; the field of the other branch keeps its initial value. -/
structure CTCPServer where
  m_eSettingsFlags : Nat
  m_ListenSocket : Int
  m_strPort : String
  m_pResultAddrInfo : Option AddrInfo
  m_HintsAddrInfo : AddrInfo
  m_ServAddr : SockAddrIn
  deriving DecidableEq, Repr

/-- The guarded logger call `if (m_eSettingsFlags & ENABLE_LOG) m_oLog(msg)`: the
messages handed to the callback. -/
def logIf (flags : Nat) (msg : String) : List String :=
  if flags &&& ENABLE_LOG ≠ 0 then [msg] else []

/-! ## Construction -/

/-- C `isspace` in the "C" locale. -/
def isspace (c : Char) : Bool := c.toNat = 32 || (9 ≤ c.toNat && c.toNat ≤ 13)

/-- Digit loop of `atoi`: accumulates decimal digits, stops at the first other
character. -/
def atoiDigits : Nat → List Char → Nat
  | acc, [] => acc
  | acc, c :: cs => if c.isDigit then atoiDigits (acc * 10 + (c.toNat - 48)) cs else acc

/-- Optional sign, then digits. -/
def atoiSigned : List Char → Int
  | [] => 0
  | c :: cs =>
    if c = '-' then -((atoiDigits 0 cs : Nat) : Int)
    else if c = '+' then ((atoiDigits 0 cs : Nat) : Int)
    else ((atoiDigits 0 (c :: cs) : Nat) : Int)

/-- C library `atoi` on the `c_str()` of the port string: leading white space is
skipped, an optional sign is read, then decimal digits.  (For values outside the
range of `int` standard C leaves the result undefined; the embedding returns the
mathematical value.) -/
def atoi (s : String) : Int := atoiSigned (s.data.dropWhile isspace)

/-- Byte swap of a 16-bit value. -/
def bswap16 (v : Nat) : Nat := (v % 256) * 256 + (v / 256) % 256

/-- Function `htons`: the argument is converted to `uint16_t`, then put in network byte
order (`le` = the host is little-endian). -/
def htons (le : Bool) (x : Int) : Nat :=
  let v := (x % 65536).toNat
  if le then bswap16 v else v

/-- Function `ntohs`: a 16-bit value in network order, read in host order. -/
def ntohs (le : Bool) (v : Nat) : Nat := if le then bswap16 v else v % 65536

/-- Outcome of `getaddrinfo`: the status and the result pointer it stored. -/
structure GaiOutcome where
  iResult : Int
  res : Option AddrInfo
  deriving DecidableEq, Repr

/-- Rendering of `%d` by `StringFormat`. -/
def fmtInt (i : Int) : String := toString i

/-- Constructor `CTCPServer::CTCPServer`.  `Except.error msg` is the thrown `EResolveError`. -/
def construct (b : Branch) (le : Bool) (strPort : String) (eSettings : Nat)
    (gai : GaiOutcome) : Except String CTCPServer :=
  let zeroAi : AddrInfo := ⟨0, 0, 0, 0⟩
  let zeroSa : SockAddrIn := ⟨0, 0, 0⟩
  match b with
  | .windows =>
    let hints : AddrInfo :=
      { ai_flags := AI_PASSIVE, ai_family := AF_INET, ai_socktype := SOCK_STREAM,
        ai_protocol := IPPROTO_TCP }
    if gai.iResult ≠ 0 then
      .error ("[TCPServer][Error] getaddrinfo failed : " ++ fmtInt gai.iResult)
    else
      .ok { m_eSettingsFlags := eSettings, m_ListenSocket := INVALID_SOCKET,
            m_strPort := strPort, m_pResultAddrInfo := gai.res,
            m_HintsAddrInfo := hints, m_ServAddr := zeroSa }
  | .posix =>
    let iPort := atoi strPort
    .ok { m_eSettingsFlags := eSettings, m_ListenSocket := INVALID_SOCKET,
          m_strPort := strPort, m_pResultAddrInfo := none, m_HintsAddrInfo := zeroAi,
          m_ServAddr := { sin_family := AF_INET, sin_port := htons le iPort,
                          sin_addr := INADDR_ANY } }

/-! ## Accept (`Listen`) -/

/-- What the environment does during one `Listen` call. -/
structure ListenOracle where
  /-- the outcome of `socket()` -/
  sock : Option Nat
  /-- whether `bind` succeeds -/
  bindOk : Bool
  /-- whether `listen` succeeds -/
  listenOk : Bool
  /-- the outcome of `accept()` -/
  acc : Option Nat
  /-- the rendering of `WSAGetLastError()` / `strerror(errno)` at the failing step -/
  errStr : String
  /-- whether `addrClient.sa_family == AF_INET` -/
  peerInet : Bool
  /-- the `inet_ntoa` of the peer address -/
  peerIp : String
  /-- the `ntohs` of the peer port -/
  peerPort : Nat
  deriving DecidableEq, Repr

/-- Result of one `Listen` call. -/
structure ListenResult where
  /-- the returned `bool` -/
  ret : Bool
  /-- the output parameter after the call -/
  ClientSocket : Int
  /-- the object after the call -/
  self : CTCPServer
  /-- the messages handed to the logger, in order -/
  log : List String
  /-- the platform calls performed, in order -/
  calls : List Call
  deriving DecidableEq, Repr

/-- The `[Info]` message of a successful accept. -/
def infoMsg (ip : String) (port : Nat) : String :=
  "[TCPServer][Info] Incoming connection from \x27" ++ ip ++ "\x27 port \x27"
    ++ toString port ++ "\x27"

/-- Lines 134-165: the listen / accept part of the WINDOWS branch; `pre` are the
platform calls already performed by the setup part. -/
def listenAcceptWindows (self : CTCPServer) (pre : List Call) (o : ListenOracle) :
    ListenResult :=
  let iResult := sysStatus o.listenOk
  if iResult = SOCKET_ERROR then
    { ret := false, ClientSocket := INVALID_SOCKET,
      self := { self with m_ListenSocket := INVALID_SOCKET },
      log := logIf self.m_eSettingsFlags ("[TCPServer][Error] listen failed : " ++ o.errStr),
      calls := pre ++ [.listen self.m_ListenSocket, .close self.m_ListenSocket] }
  else
    let ClientSocket := sysSocket o.acc
    if ClientSocket = INVALID_SOCKET then
      { ret := false, ClientSocket := ClientSocket, self := self,
        log := logIf self.m_eSettingsFlags
                 ("[TCPServer][Error] accept failed : " ++ o.errStr),
        calls := pre ++ [.listen self.m_ListenSocket, .accept self.m_ListenSocket] }
    else
      { ret := true, ClientSocket := ClientSocket, self := self,
        log := logIf self.m_eSettingsFlags
                 (infoMsg (if o.peerInet then o.peerIp else "")
                          (if o.peerInet then o.peerPort else 0)),
        calls := pre ++ [.listen self.m_ListenSocket, .accept self.m_ListenSocket] }

/-- Method `CTCPServer::Listen`, WINDOWS branch.  `none`: the call reads
`m_pResultAddrInfo->ai_family` through a null pointer. -/
def ListenWindows (self : CTCPServer) (_ClientSocket : Int) (o : ListenOracle) :
    Option ListenResult :=
  if self.m_ListenSocket = INVALID_SOCKET then
    match self.m_pResultAddrInfo with
    | none => none
    | some ai =>
      let s := sysSocket o.sock
      let c0 := Call.socket ai.ai_family ai.ai_socktype ai.ai_protocol s
      if s = INVALID_SOCKET then
        some { ret := false, ClientSocket := INVALID_SOCKET,
               self := { self with m_ListenSocket := s, m_pResultAddrInfo := none },
               log := logIf self.m_eSettingsFlags
                        ("[TCPServer][Error] socket failed : " ++ o.errStr),
               calls := [c0, .freeaddrinfo] }
      else
        let iResult := sysStatus o.bindOk
        if iResult = SOCKET_ERROR then
          some { ret := false, ClientSocket := INVALID_SOCKET,
                 self := { self with m_ListenSocket := INVALID_SOCKET,
                                     m_pResultAddrInfo := none },
                 log := logIf self.m_eSettingsFlags
                          ("[TCPServer][Error] bind failed : " ++ o.errStr),
                 calls := [c0, .bind s, .freeaddrinfo, .close s] }
        else
          some (listenAcceptWindows
                  { self with m_ListenSocket := s, m_pResultAddrInfo := none }
                  [c0, .bind s, .freeaddrinfo] o)
  else
    some (listenAcceptWindows self [] o)

/-- Lines 174-211: the listen / accept part of the non-WINDOWS branch. -/
def listenAcceptPosix (self : CTCPServer) (pre : List Call) (o : ListenOracle) :
    ListenResult :=
  let iResult := sysStatus o.listenOk
  if iResult < 0 then
    { ret := false, ClientSocket := INVALID_SOCKET, self := self,
      log := logIf self.m_eSettingsFlags ("[TCPServer][Error] listen failed : " ++ o.errStr),
      calls := pre ++ [.listen self.m_ListenSocket] }
  else
    let ClientSocket := sysSocket o.acc
    if ClientSocket < 0 then
      { ret := false, ClientSocket := ClientSocket, self := self,
        log := logIf self.m_eSettingsFlags
                 ("[TCPServer][Error] accept failed : " ++ o.errStr),
        calls := pre ++ [.listen self.m_ListenSocket, .accept self.m_ListenSocket] }
    else
      { ret := true, ClientSocket := ClientSocket, self := self,
        log := logIf self.m_eSettingsFlags (infoMsg o.peerIp o.peerPort),
        calls := pre ++ [.listen self.m_ListenSocket, .accept self.m_ListenSocket] }

/-- Method `CTCPServer::Listen`, non-WINDOWS branch. -/
def ListenPosix (self : CTCPServer) (_ClientSocket : Int) (o : ListenOracle) :
    ListenResult :=
  if self.m_ListenSocket = INVALID_SOCKET then
    let s := sysSocket o.sock
    let c0 := Call.socket AF_INET SOCK_STREAM 0 s
    if s < 0 then
      { ret := false, ClientSocket := INVALID_SOCKET,
        self := { self with m_ListenSocket := INVALID_SOCKET },
        log := logIf self.m_eSettingsFlags
                 ("[TCPServer][Error] opening socket : " ++ o.errStr),
        calls := [c0] }
    else
      let iResult := sysStatus o.bindOk
      if iResult < 0 then
        { ret := false, ClientSocket := INVALID_SOCKET,
          self := { self with m_ListenSocket := s },
          log := logIf self.m_eSettingsFlags
                   ("[TCPServer][Error] bind failed : " ++ o.errStr),
          calls := [c0, .bind s] }
      else
        listenAcceptPosix { self with m_ListenSocket := s } [c0, .bind s] o
  else
    listenAcceptPosix self [] o

/-- Method `CTCPServer::Listen(ClientSocket)`; the second argument is the value the
caller's variable holds before the call. -/
def Listen (b : Branch) (self : CTCPServer) (ClientSocket : Int) (o : ListenOracle) :
    Option ListenResult :=
  match b with
  | .windows => ListenWindows self ClientSocket o
  | .posix => some (ListenPosix self ClientSocket o)

/-! ## Receive, Send, Disconnect, teardown -/

/-- What the environment does during one `Receive` or `Send` call. -/
structure IoOracle where
  /-- the outcome of the single platform read / write: a byte count or a failure -/
  count : Option Nat
  /-- the rendering of `WSAGetLastError()` / `strerror(errno)` -/
  errStr : String
  deriving DecidableEq, Repr

/-- Result of `Receive`. -/
structure ReceiveResult where
  /-- the returned `int` -/
  ret : Int
  log : List String
  calls : List Call
  deriving DecidableEq, Repr

/-- Result of `Send` and of `Disconnect`. -/
structure BoolResult where
  /-- the returned `bool` -/
  ret : Bool
  log : List String
  calls : List Call
  deriving DecidableEq, Repr

/-- Method `CTCPServer::Receive`: `int iBytesRcvd = recv(...)` / `read(...)`. -/
def Receive (b : Branch) (self : CTCPServer) (ClientSocket : Int) (uSize : Nat)
    (o : IoOracle) : ReceiveResult :=
  let iBytesRcvd := toInt32 (sysCount o.count)
  match b with
  | .windows =>
    { ret := iBytesRcvd,
      log := if iBytesRcvd < 0 then
               logIf self.m_eSettingsFlags ("[TCPServer][Error] recv failed : " ++ o.errStr)
             else [],
      calls := [.recv ClientSocket uSize] }
  | .posix =>
    { ret := iBytesRcvd,
      log := if iBytesRcvd < 0 then
               logIf self.m_eSettingsFlags
                 ("[TCPServer][Error] reading from socket : " ++ o.errStr)
             else [],
      calls := [.recv ClientSocket uSize] }

/-- Method `CTCPServer::Send(ClientSocket, pData, uSize)`:
`int iResult = send(...)` / `write(...)`. -/
def Send (b : Branch) (self : CTCPServer) (ClientSocket : Int) (uSize : Nat)
    (o : IoOracle) : BoolResult :=
  let iResult := toInt32 (sysCount o.count)
  match b with
  | .windows =>
    if iResult = SOCKET_ERROR then
      { ret := false,
        log := logIf self.m_eSettingsFlags ("[TCPServer][Error] send failed : " ++ o.errStr),
        calls := [.send ClientSocket uSize] }
    else
      { ret := true, log := [], calls := [.send ClientSocket uSize] }
  | .posix =>
    if iResult < 0 then
      { ret := false,
        log := logIf self.m_eSettingsFlags
                 ("[TCPServer][Error] writing to socket : " ++ o.errStr),
        calls := [.send ClientSocket uSize] }
    else
      { ret := true, log := [], calls := [.send ClientSocket uSize] }

/-- Overload `Send(ClientSocket, strData)`. -/
def SendString (b : Branch) (self : CTCPServer) (ClientSocket : Int) (strData : String)
    (o : IoOracle) : BoolResult :=
  Send b self ClientSocket strData.utf8ByteSize o

/-- Overload `Send(ClientSocket, Data)` for a `std::vector<char>`. -/
def SendVector (b : Branch) (self : CTCPServer) (ClientSocket : Int) (Data : List Nat)
    (o : IoOracle) : BoolResult :=
  Send b self ClientSocket Data.length o

/-- What the environment does during one `Disconnect` call. -/
structure ShutdownOracle where
  /-- whether `shutdown` succeeds (WINDOWS branch only) -/
  shutdownOk : Bool
  /-- the rendering of `WSAGetLastError()` -/
  errStr : String
  deriving DecidableEq, Repr

/-- Method `CTCPServer::Disconnect`. -/
def Disconnect (b : Branch) (self : CTCPServer) (ClientSocket : Int)
    (o : ShutdownOracle) : BoolResult :=
  match b with
  | .windows =>
    let iResult := sysStatus o.shutdownOk
    if iResult = SOCKET_ERROR then
      { ret := false,
        log := logIf self.m_eSettingsFlags
                 ("[TCPServer][Error] shutdown failed : " ++ o.errStr),
        calls := [.shutdown ClientSocket] }
    else
      { ret := true, log := [], calls := [.shutdown ClientSocket, .close ClientSocket] }
  | .posix =>
    { ret := true, log := [], calls := [.close ClientSocket] }

/-- Destructor `CTCPServer::~CTCPServer`: the platform calls it performs. -/
def destroy (_b : Branch) (self : CTCPServer) : List Call :=
  [.close self.m_ListenSocket]

/-! ## Sequences of `Listen` calls and whole lifetimes -/

/-- A finite sequence of `Listen` calls on one object; each call comes with the value
of the caller's output variable and the platform outcomes.  The result is the final
object and, per call, the platform calls performed.  `none`: some call of the
sequence has undefined behaviour. -/
def runListens (b : Branch) :
    CTCPServer → List (Int × ListenOracle) → Option (CTCPServer × List (List Call))
  | self, [] => some (self, [])
  | self, (cs, o) :: rest =>
    match Listen b self cs o with
    | none => none
    | some r =>
      match runListens b r.self rest with
      | none => none
      | some (fin, css) => some (fin, r.calls :: css)

/-- A whole lifetime: construction, a sequence of `Listen` calls, destruction; the
platform calls on socket descriptors, in order.  A constructor that throws leaves no
object behind (no call, no destructor). -/
def lifetime (b : Branch) (le : Bool) (strPort : String) (eSettings : Nat)
    (gai : GaiOutcome) (ops : List (Int × ListenOracle)) : Option (List Call) :=
  match construct b le strPort eSettings gai with
  | .error _ => some []
  | .ok self =>
    match runListens b self ops with
    | none => none
    | some (fin, css) => some (css.flatten ++ destroy b fin)

/-- A call of `socket()` or `bind`. -/
def isSetup : Call → Bool
  | .socket _ _ _ _ => true
  | .bind _ => true
  | _ => false

/-- A call of `close` / `closesocket`. -/
def isClose : Call → Bool
  | .close _ => true
  | _ => false

/-! ## Sample inputs -/

/-- The outcome of a successful `getaddrinfo` for port 8080. -/
def resolved : GaiOutcome := { iResult := 0, res := some ⟨0, 2, 1, 6⟩ }

/-- The listener that `construct .windows true "8080" 1 resolved` returns. -/
def windowsServer : CTCPServer :=
  { m_eSettingsFlags := 1, m_ListenSocket := INVALID_SOCKET, m_strPort := "8080",
    m_pResultAddrInfo := some ⟨0, 2, 1, 6⟩, m_HintsAddrInfo := ⟨1, 2, 1, 6⟩,
    m_ServAddr := ⟨0, 0, 0⟩ }

/-- The listener that `construct .posix true "8080" 1 resolved` returns. -/
def posixServer : CTCPServer :=
  { m_eSettingsFlags := 1, m_ListenSocket := INVALID_SOCKET, m_strPort := "8080",
    m_pResultAddrInfo := none, m_HintsAddrInfo := ⟨0, 0, 0, 0⟩,
    m_ServAddr := ⟨2, 36895, 0⟩ }

/-- The WINDOWS listener once its first `Listen` call has set up descriptor 3. -/
def windowsListening : CTCPServer :=
  { windowsServer with m_ListenSocket := 3, m_pResultAddrInfo := none }

/-- Platform outcomes of a `Listen` call in which every step succeeds: `socket()`
returns 3 and `accept()` returns 4. -/
def allOk : ListenOracle :=
  { sock := some 3, bindOk := true, listenOk := true, acc := some 4, errStr := "",
    peerInet := true, peerIp := "127.0.0.1", peerPort := 40000 }

/-! ## Vocabulary for sequences of `Listen` calls -/

/-- The platform calls of a `Listen` call that finds the server descriptor `fd`
already set up: `listen` on it again, then `accept` on it when that `listen`
succeeded; when it failed, the WINDOWS branch also closes the descriptor. -/
def laterCalls (b : Branch) (fd : Int) (o : ListenOracle) : List Call :=
  if o.listenOk then [.listen fd, .accept fd]
  else
    match b with
    | .windows => [.listen fd, .close fd]
    | .posix => [.listen fd]

/-- The object holds the server descriptor `fd` (and, on the WINDOWS branch, has
consumed the resolution result). -/
def SetUp (b : Branch) (fd : Int) (self : CTCPServer) : Prop :=
  self.m_ListenSocket = fd ∧ fd ≠ INVALID_SOCKET ∧
    (b = .windows → self.m_pResultAddrInfo = none)

instance (b : Branch) (fd : Int) (self : CTCPServer) : Decidable (SetUp b fd self) := by
  unfold SetUp; infer_instance

/-- The WINDOWS object after a failed setup or listen step: no server descriptor and
no resolution result left. -/
def Spent (b : Branch) (self : CTCPServer) : Prop :=
  b = .windows ∧ self.m_ListenSocket = INVALID_SOCKET ∧ self.m_pResultAddrInfo = none

instance (b : Branch) (self : CTCPServer) : Decidable (Spent b self) := by
  unfold Spent; infer_instance


/-! ## Arithmetic helpers -/

theorem toInt32_of_small (k : Nat) (h : k < 2 ^ 31) : toInt32 (k : Int) = (k : Int) := by
  unfold toInt32
  have h1 : ((k : Int) + 2 ^ 31) % 2 ^ 32 = (k : Int) + 2 ^ 31 := by
    apply Int.emod_eq_of_lt <;> omega
  omega

theorem toInt32_neg_one : toInt32 (-1) = -1 := by decide

@[simp] theorem natCast_eq_neg_one (n : Nat) : ((n : Int) = -1) ↔ False := by
  constructor
  · intro h; omega
  · intro h; exact h.elim

@[simp] theorem natCast_lt_zero (n : Nat) : ((n : Int) < 0) ↔ False := by
  constructor
  · intro h; omega
  · intro h; exact h.elim

/-! ## C1 : `Send` and short writes -/

/-- C1, as stated, fails: a platform write that reports 3 of 5 bytes written (a short
count) makes `Send` return `true`, on both branches. -/
theorem Send_short_write_reports_true :
    (Send .posix posixServer 4 5 ⟨some 3, ""⟩).ret = true ∧
    (Send .windows windowsServer 4 5 ⟨some 3, ""⟩).ret = true := by
  constructor <;> decide

/-- C1, amended: for every client handle and every buffer length `n < 2^31`,
`Send` performs exactly one platform write and returns `false` exactly when that
write reports an error; whenever the write reports a count `k` (with `k ≤ n`, so a
short count `k < n` included) `Send` returns `true`. -/
theorem Send_false_iff_write_error (b : Branch) (self : CTCPServer) (fd : Int) (n : Nat)
    (o : IoOracle) (hn : n < 2 ^ 31) (hk : ∀ k, o.count = some k → k ≤ n) :
    ((Send b self fd n o).ret = false ↔ o.count = none) ∧
    (∀ k, o.count = some k → (Send b self fd n o).ret = true) ∧
    (Send b self fd n o).calls = [Call.send fd n] := by
  rcases o with ⟨cnt, e⟩
  cases cnt with
  | none =>
    cases b <;> simp [Send, sysCount, toInt32_neg_one, SOCKET_ERROR]
  | some k =>
    have hk' : k < 2 ^ 31 := lt_of_le_of_lt (hk k rfl) hn
    have h32 := toInt32_of_small k hk'
    cases b <;> simp [Send, sysCount, h32, SOCKET_ERROR]

/-- Witness for `Send_false_iff_write_error`: a 5-byte buffer, the write reports 3. -/
theorem Send_false_iff_write_error_witness :
    (5 < 2 ^ 31 ∧ ∀ k, (⟨some 3, ""⟩ : IoOracle).count = some k → k ≤ 5) ∧
    (((Send .posix posixServer 4 5 ⟨some 3, ""⟩).ret = false ↔
        (⟨some 3, ""⟩ : IoOracle).count = none) ∧
     (∀ k, (⟨some 3, ""⟩ : IoOracle).count = some k →
        (Send .posix posixServer 4 5 ⟨some 3, ""⟩).ret = true) ∧
     (Send .posix posixServer 4 5 ⟨some 3, ""⟩).calls = [Call.send 4 5]) :=
  ⟨⟨by decide, by intro k hk; cases hk; decide⟩,
   Send_false_iff_write_error .posix posixServer 4 5 ⟨some 3, ""⟩ (by decide)
     (by intro k hk; cases hk; decide)⟩

/-! ## C5 : the output parameter of `Listen` -/

/-- The only `Listen` call without defined behaviour is the WINDOWS one that enters
the setup path with a null `m_pResultAddrInfo`. -/
theorem Listen_eq_none_iff (b : Branch) (self : CTCPServer) (init : Int)
    (o : ListenOracle) : Listen b self init o = none ↔ Spent b self := by
  cases b with
  | windows =>
    simp only [Listen, ListenWindows, Spent, true_and]
    by_cases h : self.m_ListenSocket = INVALID_SOCKET
    · cases hai : self.m_pResultAddrInfo with
      | none => simp [h]
      | some ai =>
        simp only [h, if_true, and_false, iff_false, reduceCtorEq]
        split <;> try split
        all_goals simp
    · simp [h]
  | posix => simp [Listen, Spent]

/-- C5: whatever the object, the initial value of the output variable and the
platform outcomes, a `Listen` call that returns `false` leaves `INVALID_SOCKET` in the
output parameter, and one that returns `true` leaves there the descriptor the
platform `accept` returned, which is not the sentinel.  (The call returns in every
state but the WINDOWS one with neither server descriptor nor resolution result.) -/
theorem Listen_output_parameter (b : Branch) (self : CTCPServer) (init : Int)
    (o : ListenOracle) :
    (Listen b self init o = none ↔ Spent b self) ∧
    ∀ r, Listen b self init o = some r →
      (r.ret = false → r.ClientSocket = INVALID_SOCKET) ∧
      (r.ret = true → r.ClientSocket = sysSocket o.acc ∧
        r.ClientSocket ≠ INVALID_SOCKET ∧ Call.accept r.self.m_ListenSocket ∈ r.calls) := by
  refine ⟨Listen_eq_none_iff b self init o, ?_⟩
  intro r h
  rcases o with ⟨sock, bindOk, listenOk, acc, e, pi, ip, pp⟩
  cases b with
  | windows =>
    simp only [Listen, ListenWindows] at h
    split at h
    · cases hai : self.m_pResultAddrInfo with
      | none => simp [hai] at h
      | some ai =>
        cases sock <;> cases bindOk <;> cases listenOk <;> cases acc <;>
          simp [hai, listenAcceptWindows, sysSocket, sysStatus, INVALID_SOCKET,
            SOCKET_ERROR] at h <;> subst h <;> simp [INVALID_SOCKET, sysSocket]
    · cases listenOk <;> cases acc <;>
        simp [listenAcceptWindows, sysSocket, sysStatus, INVALID_SOCKET,
          SOCKET_ERROR] at h <;> subst h <;> simp [INVALID_SOCKET, sysSocket]
  | posix =>
    simp only [Listen, ListenPosix, Option.some.injEq] at h
    subst h
    split
    · cases sock <;> cases bindOk <;> cases listenOk <;> cases acc <;>
        simp [listenAcceptPosix, sysSocket, sysStatus, INVALID_SOCKET]
    · cases listenOk <;> cases acc <;>
        simp [listenAcceptPosix, sysSocket, sysStatus, INVALID_SOCKET]

/-- Witness for `Listen_output_parameter`: a first call in which `accept` fails, the
caller's variable holding 99 before the call. -/
theorem Listen_output_parameter_witness :
    Listen .posix posixServer 99 { allOk with acc := none }
      = some (ListenPosix posixServer 99 { allOk with acc := none }) ∧
    (ListenPosix posixServer 99 { allOk with acc := none }).ret = false ∧
    (ListenPosix posixServer 99 { allOk with acc := none }).ClientSocket
      = INVALID_SOCKET :=
  ⟨rfl, by decide,
   ((Listen_output_parameter .posix posixServer 99 { allOk with acc := none }).2
      (ListenPosix posixServer 99 { allOk with acc := none }) rfl).1 (by decide)⟩

/-! ## Unfolding lemmas for `Listen` -/

theorem Listen_windows_valid (self : CTCPServer) (init : Int) (o : ListenOracle)
    (h : self.m_ListenSocket ≠ INVALID_SOCKET) :
    Listen .windows self init o = some (listenAcceptWindows self [] o) := by
  simp [Listen, ListenWindows, h]

theorem Listen_posix_valid (self : CTCPServer) (init : Int) (o : ListenOracle)
    (h : self.m_ListenSocket ≠ INVALID_SOCKET) :
    Listen .posix self init o = some (listenAcceptPosix self [] o) := by
  simp [Listen, ListenPosix, h]

/-! ## C6 : a failed accept leaves the server socket alone -/

/-- C6: on a listener whose server socket is valid, a `Listen` call whose listen
step succeeds and whose accept step fails returns `false` and changes nothing in the
object (`m_ListenSocket` included); its platform calls are one `listen` and one
`accept` on that descriptor, so no close.  The next `Listen` call, whatever the
platform does, performs no `socket()` and no `bind`: it starts with `listen` on the
same descriptor and, when that succeeds, goes to `accept` on it. -/
theorem Listen_accept_failure_keeps_server_socket (b : Branch) (self : CTCPServer)
    (init : Int) (o : ListenOracle) (hvalid : self.m_ListenSocket ≠ INVALID_SOCKET)
    (hl : o.listenOk = true) (ha : o.acc = none) :
    ∃ r, Listen b self init o = some r ∧ r.ret = false ∧ r.self = self ∧
      r.calls = [Call.listen self.m_ListenSocket, Call.accept self.m_ListenSocket] ∧
      (∀ c ∈ r.calls, isClose c = false) ∧
      ∀ (init2 : Int) (o2 : ListenOracle), ∃ r2, Listen b r.self init2 o2 = some r2 ∧
        (∀ c ∈ r2.calls, isSetup c = false) ∧
        r2.calls.head? = some (Call.listen self.m_ListenSocket) ∧
        (o2.listenOk = true →
          r2.calls = [Call.listen self.m_ListenSocket, Call.accept self.m_ListenSocket]) := by
  rcases o with ⟨sock, bindOk, listenOk, acc, e, pi, ip, pp⟩
  simp only at hl ha
  subst hl ha
  cases b with
  | windows =>
    refine ⟨_, Listen_windows_valid self init _ hvalid, ?_⟩
    simp only [listenAcceptWindows, sysStatus, sysSocket, SOCKET_ERROR, INVALID_SOCKET]
    refine ⟨by simp, by simp, by simp, by simp [isClose], ?_⟩
    intro init2 o2
    rcases o2 with ⟨sock2, bindOk2, listenOk2, acc2, e2, pi2, ip2, pp2⟩
    refine ⟨_, Listen_windows_valid self init2 _ hvalid, ?_⟩
    cases listenOk2 <;> cases acc2 <;>
      simp [listenAcceptWindows, sysStatus, sysSocket, SOCKET_ERROR, INVALID_SOCKET,
        isSetup]
  | posix =>
    refine ⟨_, Listen_posix_valid self init _ hvalid, ?_⟩
    simp only [listenAcceptPosix, sysStatus, sysSocket]
    refine ⟨by simp, by simp, by simp, by simp [isClose], ?_⟩
    intro init2 o2
    rcases o2 with ⟨sock2, bindOk2, listenOk2, acc2, e2, pi2, ip2, pp2⟩
    refine ⟨_, Listen_posix_valid self init2 _ hvalid, ?_⟩
    cases listenOk2 <;> cases acc2 <;>
      simp [listenAcceptPosix, sysStatus, sysSocket, isSetup]

/-- Witness for `Listen_accept_failure_keeps_server_socket`: a listener whose server
descriptor is 3, with `accept` failing. -/
theorem Listen_accept_failure_keeps_server_socket_witness :
    windowsListening.m_ListenSocket
        ≠ INVALID_SOCKET ∧
    ∃ r, Listen .windows windowsListening 0
          { allOk with acc := none } = some r ∧ r.ret = false ∧
        r.self = windowsListening :=
  ⟨by decide,
   (Listen_accept_failure_keeps_server_socket .windows
      windowsListening 0 { allOk with acc := none }
      (by decide) rfl rfl).imp fun _ h => ⟨h.1, h.2.1, h.2.2.1⟩⟩

/-! ## C7 : the logging policy -/

theorem logIf_disabled (flags : Nat) (msg : String) (h : flags &&& ENABLE_LOG = 0) :
    logIf flags msg = [] := by
  simp [logIf, h]

theorem logIf_enabled (flags : Nat) (msg : String) (h : flags &&& ENABLE_LOG ≠ 0) :
    logIf flags msg = [msg] := by
  simp [logIf, h]

theorem tag_prefix_append (tag lit tail : String) (h : tag.data <+: lit.data) :
    tag.data <+: (lit ++ tail).data := by
  rw [String.data_append]
  exact h.trans (List.prefix_append _ _)

theorem infoMsg_tag (ip : String) (port : Nat) :
    "[TCPServer][Info]".data <+: (infoMsg ip port).data := by
  unfold infoMsg
  repeat apply tag_prefix_append
  decide

/-- Every `Listen` call hands one guarded message to the logger: an `[Error]` one
when it returns `false`, the `[Info]` one when it returns `true`. -/
theorem Listen_log_shape (b : Branch) (self : CTCPServer) (init : Int) (o : ListenOracle)
    (r : ListenResult) (h : Listen b self init o = some r) :
    ∃ msg, r.log = logIf self.m_eSettingsFlags msg ∧
      (r.ret = false → "[TCPServer][Error]".data <+: msg.data) ∧
      (r.ret = true → "[TCPServer][Info]".data <+: msg.data) := by
  rcases o with ⟨sock, bindOk, listenOk, acc, e, pi, ip, pp⟩
  cases b with
  | windows =>
    simp only [Listen, ListenWindows] at h
    split at h
    · cases hai : self.m_pResultAddrInfo with
      | none => simp [hai] at h
      | some ai =>
        cases sock <;> cases bindOk <;> cases listenOk <;> cases acc <;>
          simp [hai, listenAcceptWindows, sysSocket, sysStatus, INVALID_SOCKET,
            SOCKET_ERROR] at h <;> subst h <;> refine ⟨_, rfl, ?_, ?_⟩ <;>
          first
            | (intro hc; cases hc; done)
            | (intro _; exact infoMsg_tag _ _)
            | (intro _; exact tag_prefix_append _ _ _ (by decide))
    · cases listenOk <;> cases acc <;>
        simp [listenAcceptWindows, sysSocket, sysStatus, INVALID_SOCKET,
          SOCKET_ERROR] at h <;> subst h <;> refine ⟨_, rfl, ?_, ?_⟩ <;>
        first
          | (intro hc; cases hc; done)
          | (intro _; exact infoMsg_tag _ _)
          | (intro _; exact tag_prefix_append _ _ _ (by decide))
  | posix =>
    simp only [Listen, ListenPosix, Option.some.injEq] at h
    subst h
    split
    · cases sock <;> cases bindOk <;> cases listenOk <;> cases acc <;>
        simp only [listenAcceptPosix, sysSocket, sysStatus, INVALID_SOCKET] <;>
        simp <;> refine ⟨_, rfl, ?_⟩ <;>
        first
          | exact infoMsg_tag _ _
          | exact tag_prefix_append _ _ _ (by decide)
    · cases listenOk <;> cases acc <;>
        simp only [listenAcceptPosix, sysSocket, sysStatus, INVALID_SOCKET] <;>
        simp <;> refine ⟨_, rfl, ?_⟩ <;>
        first
          | exact infoMsg_tag _ _
          | exact tag_prefix_append _ _ _ (by decide)

/-- The single message of `Receive`: handed to the logger exactly when the returned
count is negative. -/
theorem Receive_log_shape (b : Branch) (self : CTCPServer) (fd : Int) (n : Nat)
    (o : IoOracle) :
    (0 ≤ (Receive b self fd n o).ret → (Receive b self fd n o).log = []) ∧
    ((Receive b self fd n o).ret < 0 →
      ∃ msg, (Receive b self fd n o).log = logIf self.m_eSettingsFlags msg ∧
        "[TCPServer][Error]".data <+: msg.data) := by
  cases b <;> simp only [Receive] <;> constructor
  · intro h; simp [not_lt.mpr h]
  · intro h
    refine ⟨_, ?_, tag_prefix_append _ "[TCPServer][Error] recv failed : " o.errStr
      (by decide)⟩
    simp [h]
  · intro h; simp [not_lt.mpr h]
  · intro h
    refine ⟨_, ?_, tag_prefix_append _ "[TCPServer][Error] reading from socket : " o.errStr
      (by decide)⟩
    simp [h]

/-- The single message of `Send`: handed to the logger exactly when `Send` returns
`false`. -/
theorem Send_log_shape (b : Branch) (self : CTCPServer) (fd : Int) (n : Nat)
    (o : IoOracle) :
    ((Send b self fd n o).ret = true → (Send b self fd n o).log = []) ∧
    ((Send b self fd n o).ret = false →
      ∃ msg, (Send b self fd n o).log = logIf self.m_eSettingsFlags msg ∧
        "[TCPServer][Error]".data <+: msg.data) := by
  cases b <;> simp only [Send] <;> split <;> simp <;>
    exact ⟨_, rfl, tag_prefix_append _ _ _ (by decide)⟩

/-- The single message of `Disconnect`: handed to the logger exactly when it returns
`false`. -/
theorem Disconnect_log_shape (b : Branch) (self : CTCPServer) (fd : Int)
    (o : ShutdownOracle) :
    ((Disconnect b self fd o).ret = true → (Disconnect b self fd o).log = []) ∧
    ((Disconnect b self fd o).ret = false →
      ∃ msg, (Disconnect b self fd o).log = logIf self.m_eSettingsFlags msg ∧
        "[TCPServer][Error]".data <+: msg.data) := by
  cases b
  · simp only [Disconnect]
    split <;> simp
    exact ⟨_, rfl, tag_prefix_append _ _ _ (by decide)⟩
  · simp [Disconnect]

/-- C7: for `Listen`, `Receive`, `Send` and `Disconnect`, every settings bitmask and
every platform outcome: with the `ENABLE_LOG` bit clear the logger is never invoked;
with the bit set, a call that reports a failure (`false`, or a negative count for
`Receive`) invokes it exactly once with a message starting `[TCPServer][Error]`, a
successful `Listen` invokes it exactly once with a message starting
`[TCPServer][Info]`, and a successful `Receive`, `Send` or `Disconnect` does not
invoke it. -/
theorem logger_policy (b : Branch) (self : CTCPServer) :
    (self.m_eSettingsFlags &&& ENABLE_LOG = 0 →
      (∀ init o r, Listen b self init o = some r → r.log = []) ∧
      (∀ fd n o, (Receive b self fd n o).log = []) ∧
      (∀ fd n o, (Send b self fd n o).log = []) ∧
      (∀ fd o, (Disconnect b self fd o).log = [])) ∧
    (self.m_eSettingsFlags &&& ENABLE_LOG ≠ 0 →
      (∀ init o r, Listen b self init o = some r →
        ∃ msg, r.log = [msg] ∧
          (r.ret = false → "[TCPServer][Error]".data <+: msg.data) ∧
          (r.ret = true → "[TCPServer][Info]".data <+: msg.data)) ∧
      (∀ fd n o,
        ((Receive b self fd n o).ret < 0 →
          ∃ msg, (Receive b self fd n o).log = [msg] ∧
            "[TCPServer][Error]".data <+: msg.data) ∧
        (0 ≤ (Receive b self fd n o).ret → (Receive b self fd n o).log = [])) ∧
      (∀ fd n o,
        ((Send b self fd n o).ret = false →
          ∃ msg, (Send b self fd n o).log = [msg] ∧
            "[TCPServer][Error]".data <+: msg.data) ∧
        ((Send b self fd n o).ret = true → (Send b self fd n o).log = [])) ∧
      (∀ fd o,
        ((Disconnect b self fd o).ret = false →
          ∃ msg, (Disconnect b self fd o).log = [msg] ∧
            "[TCPServer][Error]".data <+: msg.data) ∧
        ((Disconnect b self fd o).ret = true → (Disconnect b self fd o).log = []))) := by
  constructor
  · intro hoff
    refine ⟨?_, ?_, ?_, ?_⟩
    · intro init o r h
      obtain ⟨msg, hlog, -, -⟩ := Listen_log_shape b self init o r h
      rw [hlog, logIf_disabled _ _ hoff]
    · intro fd n o
      rcases le_or_lt 0 (Receive b self fd n o).ret with h | h
      · exact (Receive_log_shape b self fd n o).1 h
      · obtain ⟨msg, hlog, -⟩ := (Receive_log_shape b self fd n o).2 h
        rw [hlog, logIf_disabled _ _ hoff]
    · intro fd n o
      cases h : (Send b self fd n o).ret
      · obtain ⟨msg, hlog, -⟩ := (Send_log_shape b self fd n o).2 h
        rw [hlog, logIf_disabled _ _ hoff]
      · exact (Send_log_shape b self fd n o).1 h
    · intro fd o
      cases h : (Disconnect b self fd o).ret
      · obtain ⟨msg, hlog, -⟩ := (Disconnect_log_shape b self fd o).2 h
        rw [hlog, logIf_disabled _ _ hoff]
      · exact (Disconnect_log_shape b self fd o).1 h
  · intro hon
    refine ⟨?_, ?_, ?_, ?_⟩
    · intro init o r h
      obtain ⟨msg, hlog, he, hi⟩ := Listen_log_shape b self init o r h
      exact ⟨msg, by rw [hlog, logIf_enabled _ _ hon], he, hi⟩
    · intro fd n o
      refine ⟨fun h => ?_, (Receive_log_shape b self fd n o).1⟩
      obtain ⟨msg, hlog, he⟩ := (Receive_log_shape b self fd n o).2 h
      exact ⟨msg, by rw [hlog, logIf_enabled _ _ hon], he⟩
    · intro fd n o
      refine ⟨fun h => ?_, (Send_log_shape b self fd n o).1⟩
      obtain ⟨msg, hlog, he⟩ := (Send_log_shape b self fd n o).2 h
      exact ⟨msg, by rw [hlog, logIf_enabled _ _ hon], he⟩
    · intro fd o
      refine ⟨fun h => ?_, (Disconnect_log_shape b self fd o).1⟩
      obtain ⟨msg, hlog, he⟩ := (Disconnect_log_shape b self fd o).2 h
      exact ⟨msg, by rw [hlog, logIf_enabled _ _ hon], he⟩

/-- Witness for `logger_policy`: logging enabled, a WINDOWS `Disconnect` whose
shutdown fails logs exactly one `[Error]` message. -/
theorem logger_policy_witness :
    windowsServer.m_eSettingsFlags &&& ENABLE_LOG ≠ 0 ∧
    (Disconnect .windows windowsServer 5 ⟨false, "10038"⟩).ret = false ∧
    ∃ msg, (Disconnect .windows windowsServer 5 ⟨false, "10038"⟩).log = [msg] ∧
      "[TCPServer][Error]".data <+: msg.data :=
  ⟨by decide, by decide,
   (((logger_policy .windows windowsServer).2 (by decide)).2.2.2 5 ⟨false, "10038"⟩).1
     (by decide)⟩

/-! ## C10 : the bind address built by the non-WINDOWS constructor -/

theorem digitChar_facts (d : Nat) (h : d < 10) :
    (Nat.digitChar d).isDigit = true ∧ (Nat.digitChar d).toNat - 48 = d ∧
    isspace (Nat.digitChar d) = false ∧ Nat.digitChar d ≠ '-' ∧ Nat.digitChar d ≠ '+' := by
  interval_cases d <;> decide

/-- Reading back the digits that `Nat.toDigitsCore` puts in front of `ds`. -/
theorem atoiDigits_toDigitsCore (fuel : Nat) :
    ∀ (n : Nat) (ds : List Char), n < fuel →
      ∃ k, ∀ acc, atoiDigits acc (Nat.toDigitsCore 10 fuel n ds)
        = atoiDigits (acc * 10 ^ k + n) ds := by
  induction fuel with
  | zero => intro n ds h; omega
  | succ fuel ih =>
    intro n ds h
    have hd := digitChar_facts (n % 10) (Nat.mod_lt _ (by decide))
    by_cases h0 : n / 10 = 0
    · refine ⟨1, fun acc => ?_⟩
      have hn : n % 10 = n := Nat.mod_eq_of_lt (by omega)
      simp only [Nat.toDigitsCore, h0, if_true, atoiDigits, hd.1, hd.2.1]
      rw [hn, pow_one]
    · obtain ⟨k, hk⟩ := ih (n / 10) (Nat.digitChar (n % 10) :: ds) (by omega)
      refine ⟨k + 1, fun acc => ?_⟩
      simp only [Nat.toDigitsCore, h0, if_false]
      rw [hk acc]
      simp only [atoiDigits, hd.1, hd.2.1, if_true]
      congr 1
      have := Nat.div_add_mod n 10
      rw [pow_succ]
      nlinarith [Nat.div_add_mod n 10]

/-- The numeral produced by `Nat.toDigitsCore` starts with a digit. -/
theorem toDigitsCore_head (fuel : Nat) :
    ∀ (n : Nat) (ds : List Char),
      ∃ d rest, d < 10 ∧ Nat.toDigitsCore 10 (fuel + 1) n ds = Nat.digitChar d :: rest := by
  induction fuel with
  | zero =>
    intro n ds
    refine ⟨n % 10, ds, Nat.mod_lt _ (by decide), ?_⟩
    simp [Nat.toDigitsCore]
  | succ fuel ih =>
    intro n ds
    by_cases h0 : n / 10 = 0
    · refine ⟨n % 10, ds, Nat.mod_lt _ (by decide), ?_⟩
      simp [Nat.toDigitsCore, h0]
    · obtain ⟨d, rest, hd, hr⟩ := ih (n / 10) (Nat.digitChar (n % 10) :: ds)
      refine ⟨d, rest, hd, ?_⟩
      rw [← hr]
      conv_lhs => unfold Nat.toDigitsCore
      simp [h0]

/-- The function `atoi` reads the decimal numeral of `n` back as `n`. -/
theorem atoi_toString (n : Nat) : atoi (toString n) = (n : Int) := by
  have hdata : (toString n).data = Nat.toDigits 10 n := rfl
  obtain ⟨d, rest, hd, hr⟩ := toDigitsCore_head n n []
  obtain ⟨k, hk⟩ := atoiDigits_toDigitsCore (n + 1) n [] (Nat.lt_succ_self n)
  have hf := digitChar_facts d hd
  have hval : atoiDigits 0 (Nat.digitChar d :: rest) = n := by
    rw [← hr, hk 0]
    simp [atoiDigits]
  unfold atoi
  rw [hdata]
  unfold Nat.toDigits
  rw [hr]
  simp only [List.dropWhile, hf.2.2.1, atoiSigned, hf.2.2.2.1, hf.2.2.2.2, if_false]
  rw [hval]

theorem bswap16_bswap16 (v : Nat) (h : v < 65536) : bswap16 (bswap16 v) = v := by
  unfold bswap16
  have hb : v / 256 < 256 := by omega
  have h1 : v / 256 % 256 = v / 256 := Nat.mod_eq_of_lt hb
  have ha : v % 256 < 256 := Nat.mod_lt _ (by decide)
  have h2 : (v % 256 * 256 + v / 256) % 256 = v / 256 := by omega
  have h3 : (v % 256 * 256 + v / 256) / 256 = v % 256 := by omega
  rw [h1, h2, h3, Nat.mod_mod]
  omega

/-- Reading the stored port back in host order gives the `uint16_t` value. -/
theorem ntohs_htons (le : Bool) (x : Int) : (ntohs le (htons le x) : Int) = x % 65536 := by
  have h0 : 0 ≤ x % 65536 := Int.emod_nonneg _ (by decide)
  have h1 : x % 65536 < 65536 := Int.emod_lt_of_pos _ (by decide)
  have hv : (x % 65536).toNat < 65536 := by omega
  cases le
  · simp only [ntohs, htons, Bool.false_eq_true, if_false]
    rw [Nat.mod_eq_of_lt hv]
    omega
  · simp only [ntohs, htons, if_true]
    rw [bswap16_bswap16 _ hv]
    omega

/-- C10: on the non-WINDOWS branch construction succeeds for every port string, and
the stored bind address has family `AF_INET`, address `INADDR_ANY` and port field
`htons(atoi(strPort))`.  For the decimal numeral of `n ≤ 65535` the port read in host
order is `n`; for the numeral of `n` with `65536 ≤ n ≤ 2^31 - 1` it is `n mod 65536`;
for a string that, after leading white space, does not start with a digit or a sign,
it is 0. -/
theorem construct_posix_bind_address (le : Bool) (eSettings : Nat) (gai : GaiOutcome) :
    (∀ strPort : String, ∃ self,
      construct .posix le strPort eSettings gai = .ok self ∧
      self.m_ServAddr.sin_family = AF_INET ∧ self.m_ServAddr.sin_addr = INADDR_ANY ∧
      self.m_ServAddr.sin_port = htons le (atoi strPort)) ∧
    (∀ (n : Nat) self, n ≤ 65535 →
      construct .posix le (toString n) eSettings gai = .ok self →
      ntohs le self.m_ServAddr.sin_port = n) ∧
    (∀ (n : Nat) self, 65536 ≤ n → n ≤ 2 ^ 31 - 1 →
      construct .posix le (toString n) eSettings gai = .ok self →
      ntohs le self.m_ServAddr.sin_port = n % 65536) ∧
    (∀ (s : String) self,
      (∀ c rest, s.data.dropWhile isspace = c :: rest →
        c.isDigit = false ∧ c ≠ '-' ∧ c ≠ '+') →
      construct .posix le s eSettings gai = .ok self →
      ntohs le self.m_ServAddr.sin_port = 0) := by
  have key : ∀ (s : String) self, construct .posix le s eSettings gai = .ok self →
      (ntohs le self.m_ServAddr.sin_port : Int) = atoi s % 65536 := by
    intro s self h
    simp only [construct, Except.ok.injEq] at h
    subst h
    exact ntohs_htons le (atoi s)
  refine ⟨fun strPort => ⟨_, rfl, rfl, rfl, rfl⟩, ?_, ?_, ?_⟩
  · intro n self hn h
    have := key _ self h
    rw [atoi_toString] at this
    omega
  · intro n self _ _ h
    have := key _ self h
    rw [atoi_toString] at this
    omega
  · intro s self hs h
    have hk := key _ self h
    have h0 : atoi s = 0 := by
      unfold atoi
      cases hd : s.data.dropWhile isspace with
      | nil => rfl
      | cons c rest =>
        obtain ⟨h1, h2, h3⟩ := hs c rest hd
        simp [atoiSigned, atoiDigits, h1, h2, h3]
    rw [h0] at hk
    omega

/-- Witness for `construct_posix_bind_address`: ports 8080 and 70000 on a
little-endian host. -/
theorem construct_posix_bind_address_witness :
    (8080 ≤ 65535 ∧
      construct .posix true (toString 8080) 1 resolved =
        .ok posixServer) ∧
    ntohs true posixServer.m_ServAddr.sin_port = 8080 :=
  ⟨⟨by decide, rfl⟩,
   (construct_posix_bind_address true 1 resolved).2.1 8080 posixServer
     (by decide) rfl⟩

/-! ## C2 : the non-WINDOWS branch after a failed bind or listen -/

/-- C2 at a failing input: on the non-WINDOWS branch, from a freshly constructed
listener, a `Listen` call whose `socket()` returns 3 and whose `bind` fails returns
`false` but leaves `m_ListenSocket = 3`, not the sentinel, and closes nothing; the
next `Listen` call then performs no `socket()` and no `bind`, only `listen` and
`accept` on descriptor 3.  The same holds after a failed `listen`. -/
theorem Listen_posix_failed_bind_keeps_descriptor :
    construct .posix true "8080" 1 resolved = .ok posixServer ∧
    (Listen .posix posixServer 0 { allOk with bindOk := false }).map
        (fun r => (r.ret, r.self.m_ListenSocket, r.calls))
      = some (false, 3, [Call.socket 2 1 0 3, Call.bind 3]) ∧
    ((Listen .posix posixServer 0 { allOk with bindOk := false }).bind
        (fun r => Listen .posix r.self 0 allOk)).map (fun r => (r.ret, r.calls))
      = some (true, [Call.listen 3, Call.accept 3]) ∧
    (Listen .posix posixServer 0 { allOk with listenOk := false }).map
        (fun r => (r.ret, r.self.m_ListenSocket, r.calls))
      = some (false, 3, [Call.socket 2 1 0 3, Call.bind 3, Call.listen 3]) ∧
    (3 : Int) ≠ INVALID_SOCKET := by
  refine ⟨rfl, ?_, ?_, ?_, ?_⟩ <;> decide

/-! ## C4 : `Disconnect` when the shutdown step fails -/

/-- C4 at a failing input: on the WINDOWS branch, `Disconnect` on handle 5 with a
failing `shutdown` returns `false` after the single call `shutdown(5)`: no close call
is performed on the handle. -/
theorem Disconnect_windows_failed_shutdown_skips_close :
    (Disconnect .windows windowsServer 5 ⟨false, "10038"⟩).ret = false ∧
    (Disconnect .windows windowsServer 5 ⟨false, "10038"⟩).calls = [Call.shutdown 5] ∧
    Call.close 5 ∉ (Disconnect .windows windowsServer 5 ⟨false, "10038"⟩).calls ∧
    (Disconnect .posix posixServer 5 ⟨false, "10038"⟩).calls = [Call.close 5] := by
  refine ⟨?_, ?_, ?_, ?_⟩ <;> decide

/-! ## C9 : the WINDOWS setup path after a failed first attempt -/

/-- C9 at a failing input: on the WINDOWS branch, after a successful construction a
first `Listen` call whose `socket()` fails leaves `m_ListenSocket` at the sentinel
and `m_pResultAddrInfo` null; the retry then reads `m_pResultAddrInfo->ai_family`
through the null pointer (the embedding returns `none`).  The same state is reached
after a failed `bind`. -/
theorem Listen_windows_retry_reads_freed_addrinfo :
    construct .windows true "8080" 1 resolved = .ok windowsServer ∧
    (Listen .windows windowsServer 0 { allOk with sock := none }).map
        (fun r => (r.ret, r.self.m_ListenSocket, r.self.m_pResultAddrInfo))
      = some (false, INVALID_SOCKET, none) ∧
    (Listen .windows windowsServer 0 { allOk with sock := none }).bind
        (fun r => Listen .windows r.self 0 allOk) = none ∧
    (Listen .windows windowsServer 0 { allOk with bindOk := false }).map
        (fun r => (r.ret, r.self.m_ListenSocket, r.self.m_pResultAddrInfo))
      = some (false, INVALID_SOCKET, none) ∧
    (Listen .windows windowsServer 0 { allOk with bindOk := false }).bind
        (fun r => Listen .windows r.self 0 allOk) = none := by
  refine ⟨rfl, ?_, ?_, ?_, ?_⟩ <;> decide

/-! ## Sequences of `Listen` calls -/

theorem listenAcceptWindows_calls (self : CTCPServer) (pre : List Call) (o : ListenOracle) :
    (listenAcceptWindows self pre o).calls
      = pre ++ laterCalls .windows self.m_ListenSocket o := by
  rcases o with ⟨sock, bindOk, listenOk, acc, e, pi, ip, pp⟩
  cases listenOk <;> cases acc <;>
    simp [listenAcceptWindows, laterCalls, sysStatus, sysSocket, SOCKET_ERROR,
      INVALID_SOCKET]

theorem listenAcceptWindows_self (self : CTCPServer) (pre : List Call) (o : ListenOracle) :
    (listenAcceptWindows self pre o).self
      = if o.listenOk then self else { self with m_ListenSocket := INVALID_SOCKET } := by
  rcases o with ⟨sock, bindOk, listenOk, acc, e, pi, ip, pp⟩
  cases listenOk <;> cases acc <;>
    simp [listenAcceptWindows, sysStatus, sysSocket, SOCKET_ERROR, INVALID_SOCKET]

theorem listenAcceptPosix_calls (self : CTCPServer) (pre : List Call) (o : ListenOracle) :
    (listenAcceptPosix self pre o).calls
      = pre ++ laterCalls .posix self.m_ListenSocket o := by
  rcases o with ⟨sock, bindOk, listenOk, acc, e, pi, ip, pp⟩
  cases listenOk <;> cases acc <;>
    simp [listenAcceptPosix, laterCalls, sysStatus, sysSocket]

theorem listenAcceptPosix_self (self : CTCPServer) (pre : List Call) (o : ListenOracle) :
    (listenAcceptPosix self pre o).self = self := by
  rcases o with ⟨sock, bindOk, listenOk, acc, e, pi, ip, pp⟩
  cases listenOk <;> cases acc <;>
    simp [listenAcceptPosix, sysStatus, sysSocket]

/-- One `Listen` call on an object that holds the server descriptor `fd`. -/
theorem Listen_of_SetUp (b : Branch) (fd : Int) (self : CTCPServer) (init : Int)
    (o : ListenOracle) (h : SetUp b fd self) :
    ∃ r, Listen b self init o = some r ∧ r.calls = laterCalls b fd o ∧
      ((SetUp b fd r.self ∧ (o.listenOk = true ∨ b = .posix)) ∨
       (Spent b r.self ∧ o.listenOk = false)) := by
  obtain ⟨hfd, hne, hai⟩ := h
  subst hfd
  cases b with
  | windows =>
    refine ⟨_, Listen_windows_valid self init o hne, ?_, ?_⟩
    · simp [listenAcceptWindows_calls]
    · rw [listenAcceptWindows_self]
      cases hl : o.listenOk
      · right
        simp [Spent, hai]
      · left
        simp [SetUp, hne, hai]
  | posix =>
    refine ⟨_, Listen_posix_valid self init o hne, ?_, ?_⟩
    · simp [listenAcceptPosix_calls]
    · rw [listenAcceptPosix_self]
      left
      simp [SetUp, hne]

/-- A spent WINDOWS object: the next `Listen` call is undefined. -/
theorem Listen_of_Spent (b : Branch) (self : CTCPServer) (init : Int) (o : ListenOracle)
    (h : Spent b self) : Listen b self init o = none := by
  obtain ⟨hb, hs, hai⟩ := h
  subst hb
  simp [Listen, ListenWindows, hs, hai]

theorem runListens_of_Spent (b : Branch) (self : CTCPServer)
    (ops : List (Int × ListenOracle)) (fin : CTCPServer) (css : List (List Call))
    (h : Spent b self) (hr : runListens b self ops = some (fin, css)) :
    ops = [] ∧ css = [] ∧ fin = self := by
  cases ops with
  | nil =>
    simp only [runListens, Option.some.injEq, Prod.mk.injEq] at hr
    exact ⟨rfl, hr.2.symm, hr.1.symm⟩
  | cons op rest =>
    obtain ⟨init, o⟩ := op
    simp [runListens, Listen_of_Spent b self init o h] at hr

theorem laterCalls_count_close (b : Branch) (fd : Int) (o : ListenOracle) :
    (laterCalls b fd o).count (Call.close fd)
      = if o.listenOk = false ∧ b = .windows then 1 else 0 := by
  cases b <;> cases hl : o.listenOk <;> simp [laterCalls, hl]

theorem laterCalls_no_setup (b : Branch) (fd : Int) (o : ListenOracle) :
    ∀ c ∈ laterCalls b fd o, isSetup c = false := by
  cases b <;> cases hl : o.listenOk <;> simp [laterCalls, hl, isSetup]

/-- A sequence of `Listen` calls on an object that holds the server descriptor `fd`:
every call performs `laterCalls`; the descriptor is closed by at most one of them, and
exactly when the object ends up spent. -/
theorem runListens_of_SetUp (b : Branch) (fd : Int) :
    ∀ (ops : List (Int × ListenOracle)) (self fin : CTCPServer) (css : List (List Call)),
      SetUp b fd self → runListens b self ops = some (fin, css) →
      css = ops.map (fun op => laterCalls b fd op.2) ∧
      ((SetUp b fd fin ∧ css.flatten.count (Call.close fd) = 0) ∨
       (Spent b fin ∧ css.flatten.count (Call.close fd) = 1)) := by
  intro ops
  induction ops with
  | nil =>
    intro self fin css hs hr
    simp only [runListens, Option.some.injEq, Prod.mk.injEq] at hr
    obtain ⟨h1, h2⟩ := hr
    subst h1 h2
    exact ⟨rfl, Or.inl ⟨hs, rfl⟩⟩
  | cons op rest ih =>
    intro self fin css hs hr
    obtain ⟨init, o⟩ := op
    obtain ⟨r, hL, hcalls, hstate⟩ := Listen_of_SetUp b fd self init o hs
    simp only [runListens, hL] at hr
    cases hrest : runListens b r.self rest with
    | none => simp [hrest] at hr
    | some p =>
      obtain ⟨fin2, css2⟩ := p
      simp only [hrest, Option.some.injEq, Prod.mk.injEq] at hr
      obtain ⟨h1, h2⟩ := hr
      subst h1 h2
      rcases hstate with ⟨hset, hok⟩ | ⟨hsp, hfail⟩
      · obtain ⟨hmap, hfin⟩ := ih r.self fin2 css2 hset hrest
        refine ⟨by simp [hcalls, hmap], ?_⟩
        have hc : (laterCalls b fd o).count (Call.close fd) = 0 := by
          rw [laterCalls_count_close]
          rcases hok with hok | hok <;> simp [hok]
        simp only [List.flatten_cons, List.count_append, hcalls, hc, zero_add]
        exact hfin
      · obtain ⟨h1, h2, h3⟩ := runListens_of_Spent b r.self rest fin2 css2 hsp hrest
        subst h1 h2 h3
        refine ⟨by simp [hcalls], Or.inr ⟨hsp, ?_⟩⟩
        have hc : (laterCalls b fd o).count (Call.close fd) = 1 := by
          rw [laterCalls_count_close]
          simp [hfail, hsp.1]
        simp [hcalls, hc]

/-- The first `Listen` call on an object without server descriptor: either the
non-WINDOWS `socket()` failed and nothing changed, or the WINDOWS object is spent
(whatever it created it has closed), or the object now holds a descriptor `s`. -/
theorem Listen_of_fresh (b : Branch) (self : CTCPServer) (init : Int) (o : ListenOracle)
    (r : ListenResult) (h0 : self.m_ListenSocket = INVALID_SOCKET)
    (h : Listen b self init o = some r) :
    (b = .posix ∧ r.self.m_ListenSocket = INVALID_SOCKET ∧
      r.calls = [Call.socket AF_INET SOCK_STREAM 0 (-1)]) ∨
    (Spent b r.self ∧ (∀ fd, Call.accept fd ∉ r.calls) ∧
      (∀ fd af ty pr, Call.socket af ty pr fd ∈ r.calls → fd ≠ INVALID_SOCKET →
        r.calls.count (Call.close fd) = 1)) ∨
    (∃ s, SetUp b s r.self ∧ (∀ fd, Call.accept fd ∈ r.calls → fd = s) ∧
      (∀ fd af ty pr, Call.socket af ty pr fd ∈ r.calls → fd = s) ∧
      (∀ fd, r.calls.count (Call.close fd) = 0)) := by
  rcases o with ⟨sock, bindOk, listenOk, acc, e, pi, ip, pp⟩
  cases b with
  | windows =>
    simp only [Listen, ListenWindows, h0, if_true] at h
    cases hai : self.m_pResultAddrInfo with
    | none => simp [hai] at h
    | some ai =>
      simp only [hai] at h
      cases sock with
      | none =>
        simp [sysSocket, INVALID_SOCKET] at h
        subst h
        right; left
        simp [Spent, INVALID_SOCKET]
      | some s =>
        cases bindOk with
        | false =>
          simp [sysSocket, sysStatus, INVALID_SOCKET, SOCKET_ERROR] at h
          subst h
          right; left
          refine ⟨by simp [Spent, INVALID_SOCKET], by simp, ?_⟩
          intro fd af ty pr hm _
          simp at hm
          simp [hm.2.2.2]
        | true =>
          simp [sysSocket, sysStatus, INVALID_SOCKET, SOCKET_ERROR] at h
          subst h
          rw [listenAcceptWindows_calls, listenAcceptWindows_self]
          cases listenOk with
          | false =>
            right; left
            refine ⟨by simp [Spent, INVALID_SOCKET], by simp [laterCalls], ?_⟩
            intro fd af ty pr hm _
            simp [laterCalls] at hm
            simp [laterCalls, hm.2.2.2]
          | true =>
            right; right
            refine ⟨(s : Int), by simp [SetUp, INVALID_SOCKET], ?_, ?_, ?_⟩
            · intro fd hm
              simpa [laterCalls] using hm
            · intro fd af ty pr hm
              simp [laterCalls] at hm
              exact hm.2.2.2
            · intro fd
              simp [laterCalls]
  | posix =>
    simp only [Listen, ListenPosix, h0, if_true, Option.some.injEq] at h
    cases sock with
    | none =>
      simp [sysSocket] at h
      subst h
      left
      simp [INVALID_SOCKET]
    | some s =>
      right; right
      cases bindOk with
      | false =>
        simp [sysSocket, sysStatus] at h
        subst h
        exact ⟨(s : Int), by simp [SetUp, INVALID_SOCKET], by simp, by simp, by simp⟩
      | true =>
        simp [sysSocket, sysStatus] at h
        subst h
        rw [listenAcceptPosix_calls, listenAcceptPosix_self]
        refine ⟨(s : Int), by simp [SetUp, INVALID_SOCKET], ?_, ?_, ?_⟩
        · intro fd hm
          cases hl : listenOk <;> simp [laterCalls, hl] at hm
          exact hm
        · intro fd af ty pr hm
          cases hl : listenOk <;> simp [laterCalls, hl] at hm <;> exact hm.2.2.2
        · intro fd
          cases hl : listenOk <;> simp [laterCalls, hl]

theorem laterCalls_mem (b : Branch) (fd : Int) (o : ListenOracle) (c : Call)
    (h : c ∈ laterCalls b fd o) :
    c = Call.listen fd ∨ c = Call.accept fd ∨ c = Call.close fd := by
  cases b <;> cases hl : o.listenOk <;> simp [laterCalls, hl] at h <;> tauto

theorem mem_flatten_laterCalls (b : Branch) (fd : Int) (ops : List (Int × ListenOracle))
    (c : Call) (h : c ∈ (ops.map (fun op => laterCalls b fd op.2)).flatten) :
    c = Call.listen fd ∨ c = Call.accept fd ∨ c = Call.close fd := by
  simp only [List.mem_flatten, List.mem_map] at h
  obtain ⟨l, ⟨op, -, hl⟩, hc⟩ := h
  subst hl
  exact laterCalls_mem b fd op.2 c hc

theorem count_close_destroy (b : Branch) (fin : CTCPServer) (fd : Int) :
    (destroy b fin).count (Call.close fd) = if fin.m_ListenSocket = fd then 1 else 0 := by
  by_cases h : fin.m_ListenSocket = fd
  · simp [destroy, h]
  · simp [destroy, List.count_cons, h, Ne.symm h, eq_comm]

/-- A sequence of `Listen` calls on an object without server descriptor, followed by
the destructor: every descriptor that a `socket()` call returned is closed exactly
once, and once some call has reached `accept` on `fd` the object holds `fd` or is
spent. -/
theorem runListens_of_fresh (b : Branch) :
    ∀ (ops : List (Int × ListenOracle)) (self fin : CTCPServer) (css : List (List Call)),
      self.m_ListenSocket = INVALID_SOCKET → runListens b self ops = some (fin, css) →
      (∀ fd af ty pr, Call.socket af ty pr fd ∈ css.flatten → fd ≠ INVALID_SOCKET →
        (css.flatten ++ destroy b fin).count (Call.close fd) = 1) ∧
      (∀ fd, Call.accept fd ∈ css.flatten → SetUp b fd fin ∨ Spent b fin) := by
  intro ops
  induction ops with
  | nil =>
    intro self fin css _ hr
    simp only [runListens, Option.some.injEq, Prod.mk.injEq] at hr
    obtain ⟨h1, h2⟩ := hr
    subst h1 h2
    simp
  | cons op rest ih =>
    intro self fin css h0 hr
    obtain ⟨init, o⟩ := op
    simp only [runListens] at hr
    cases hL : Listen b self init o with
    | none => simp [hL] at hr
    | some r =>
      simp only [hL] at hr
      cases hrest : runListens b r.self rest with
      | none => simp [hrest] at hr
      | some p =>
        obtain ⟨fin2, css2⟩ := p
        simp only [hrest, Option.some.injEq, Prod.mk.injEq] at hr
        obtain ⟨h1, h2⟩ := hr
        subst h1 h2
        rcases Listen_of_fresh b self init o r h0 hL with
          ⟨_, hinv, hcalls⟩ | ⟨hsp, hnoacc, hcl⟩ | ⟨s, hset, hacc, hsock, hnocl⟩
        · obtain ⟨ih1, ih2⟩ := ih r.self fin2 css2 hinv hrest
          constructor
          · intro fd af ty pr hm hne
            simp only [List.flatten_cons, hcalls, List.mem_append, List.mem_singleton,
              Call.socket.injEq] at hm
            rcases hm with hm | hm
            · exact absurd hm.2.2.2 hne
            · have := ih1 fd af ty pr hm hne
              simpa [hcalls, List.count_append] using this
          · intro fd hm
            simp only [List.flatten_cons, hcalls, List.mem_append, List.mem_singleton] at hm
            rcases hm with hm | hm
            · cases hm
            · exact ih2 fd hm
        · obtain ⟨e1, e2, e3⟩ := runListens_of_Spent b r.self rest fin2 css2 hsp hrest
          subst e1 e2 e3
          constructor
          · intro fd af ty pr hm hne
            simp only [List.flatten_cons, List.flatten_nil, List.append_nil] at hm ⊢
            rw [List.count_append, hcl fd af ty pr hm hne, count_close_destroy]
            have : r.self.m_ListenSocket ≠ fd := by
              rw [hsp.2.1]; exact fun h => hne h.symm
            simp [this]
          · intro fd hm
            simp only [List.flatten_cons, List.flatten_nil, List.append_nil] at hm
            exact absurd hm (hnoacc fd)
        · obtain ⟨hmap, hfin⟩ := runListens_of_SetUp b s rest r.self fin2 css2 hset hrest
          have hfd : ∀ fd af ty pr,
              Call.socket af ty pr fd ∈ (r.calls :: css2).flatten → fd = s := by
            intro fd af ty pr hm
            simp only [List.flatten_cons, List.mem_append] at hm
            rcases hm with hm | hm
            · exact hsock fd af ty pr hm
            · rw [hmap] at hm
              rcases mem_flatten_laterCalls b s rest _ hm with h | h | h <;> cases h
          constructor
          · intro fd af ty pr hm hne
            have hs := hfd fd af ty pr hm
            subst hs
            simp only [List.flatten_cons, List.count_append, hnocl, zero_add,
              count_close_destroy]
            rcases hfin with ⟨hset2, hc⟩ | ⟨hsp2, hc⟩
            · simp [hc, hset2.1]
            · have : fin2.m_ListenSocket ≠ fd := by
                rw [hsp2.2.1]; exact fun h => hne h.symm
              simp [hc, this]
          · intro fd hm
            have hs : fd = s := by
              simp only [List.flatten_cons, List.mem_append] at hm
              rcases hm with hm | hm
              · exact hacc fd hm
              · rw [hmap] at hm
                rcases mem_flatten_laterCalls b s rest _ hm with h | h | h <;>
                  simp at h
                exact h
            subst hs
            rcases hfin with ⟨hset2, _⟩ | ⟨hsp2, _⟩
            · exact Or.inl hset2
            · exact Or.inr hsp2

theorem ListenPosix_no_close (self : CTCPServer) (init : Int) (o : ListenOracle) :
    ∀ c ∈ (ListenPosix self init o).calls, isClose c = false := by
  rcases o with ⟨sock, bindOk, listenOk, acc, e, pi, ip, pp⟩
  simp only [ListenPosix]
  split <;> cases sock <;> cases bindOk <;> cases listenOk <;> cases acc <;>
    simp [listenAcceptPosix, sysSocket, sysStatus, isClose]

/-- On the non-WINDOWS branch every sequence of `Listen` calls is defined and none of
its calls closes anything. -/
theorem runListens_posix_total :
    ∀ (ops : List (Int × ListenOracle)) (self : CTCPServer),
      ∃ fin css, runListens .posix self ops = some (fin, css) ∧
        ∀ c ∈ css.flatten, isClose c = false := by
  intro ops
  induction ops with
  | nil => intro self; exact ⟨self, [], rfl, by simp⟩
  | cons op rest ih =>
    intro self
    obtain ⟨init, o⟩ := op
    obtain ⟨fin, css, hr, hc⟩ := ih (ListenPosix self init o).self
    refine ⟨fin, (ListenPosix self init o).calls :: css, by simp [runListens, Listen, hr], ?_⟩
    intro c hm
    simp only [List.flatten_cons, List.mem_append] at hm
    rcases hm with hm | hm
    · exact ListenPosix_no_close self init o c hm
    · exact hc c hm

theorem construct_listen_socket (b : Branch) (le : Bool) (strPort : String)
    (eSettings : Nat) (gai : GaiOutcome) (self : CTCPServer)
    (h : construct b le strPort eSettings gai = .ok self) :
    self.m_ListenSocket = INVALID_SOCKET := by
  cases b
  · simp only [construct] at h
    split at h
    · cases h
    · simp only [Except.ok.injEq] at h
      subst h
      rfl
  · simp only [construct, Except.ok.injEq] at h
    subst h
    rfl

/-- On the WINDOWS branch a `Listen` call that fails at its bind or listen step
closes the server descriptor itself and resets `m_ListenSocket`. -/
theorem ListenWindows_failure_closes (self : CTCPServer) (init : Int) (o : ListenOracle)
    (r : ListenResult) (fd : Int) (h : Listen .windows self init o = some r)
    (hf : (Call.bind fd ∈ r.calls ∧ o.bindOk = false) ∨
          (Call.listen fd ∈ r.calls ∧ o.listenOk = false)) :
    Call.close fd ∈ r.calls ∧ r.self.m_ListenSocket = INVALID_SOCKET ∧ r.ret = false := by
  rcases o with ⟨sock, bindOk, listenOk, acc, e, pi, ip, pp⟩
  simp only [Listen, ListenWindows] at h
  split at h
  · cases hai : self.m_pResultAddrInfo with
    | none => simp [hai] at h
    | some ai =>
      cases sock <;> cases bindOk <;> cases listenOk <;> cases acc <;>
        simp [hai, listenAcceptWindows, sysSocket, sysStatus, INVALID_SOCKET,
          SOCKET_ERROR] at h <;> subst h <;> simp at hf <;>
        simp [INVALID_SOCKET, hf]
  · cases listenOk <;> cases acc <;>
      simp [listenAcceptWindows, sysSocket, sysStatus, INVALID_SOCKET,
        SOCKET_ERROR] at h <;> subst h <;> simp at hf <;>
      simp [INVALID_SOCKET, hf]

/-! ## C3 : what later `Listen` calls invoke -/

/-- C3, as stated, fails: after a first `Listen` call that completed `socket()`,
`bind`, `listen` and `accept` on descriptor 3, the second call invokes `listen(3)`
again before `accept(3)`. -/
theorem Listen_second_call_listens_again :
    construct .posix true "8080" 1 resolved = .ok posixServer ∧
    (runListens .posix posixServer [(0, allOk), (0, allOk)]).map (fun p => p.2)
      = some [[Call.socket 2 1 0 3, Call.bind 3, Call.listen 3, Call.accept 3],
              [Call.listen 3, Call.accept 3]] := by
  refine ⟨rfl, ?_⟩
  decide

/-- C3, amended: in a sequence of `Listen` calls on one listener, once a call has
reached `accept` on the server descriptor `fd` (so create, bind and listen have been
completed), no later call invokes `socket()` or `bind` again; each later call invokes
`listen` again on `fd` and then, when that `listen` succeeds, `accept` on `fd` (on
the WINDOWS branch a failing `listen` is followed by closing `fd`).  On the
non-WINDOWS branch every continuation of the sequence is defined. -/
theorem Listen_after_setup_no_create_no_bind (b : Branch) (le : Bool) (strPort : String)
    (eSettings : Nat) (gai : GaiOutcome) (self0 mid : CTCPServer)
    (ops1 : List (Int × ListenOracle)) (css1 : List (List Call)) (fd : Int)
    (h0 : construct b le strPort eSettings gai = .ok self0)
    (h1 : runListens b self0 ops1 = some (mid, css1))
    (hacc : Call.accept fd ∈ css1.flatten) :
    (∀ ops2 fin css2, runListens b mid ops2 = some (fin, css2) →
      css2 = ops2.map (fun op => laterCalls b fd op.2) ∧
      ∀ cs ∈ css2, ∀ c ∈ cs, isSetup c = false) ∧
    (b = .posix → ∀ ops2, ∃ fin css2, runListens b mid ops2 = some (fin, css2)) := by
  have hinv := construct_listen_socket b le strPort eSettings gai self0 h0
  have hmid := (runListens_of_fresh b ops1 self0 mid css1 hinv h1).2 fd hacc
  constructor
  · intro ops2 fin css2 h2
    have hmap : css2 = ops2.map (fun op => laterCalls b fd op.2) := by
      rcases hmid with hset | hsp
      · exact (runListens_of_SetUp b fd ops2 mid fin css2 hset h2).1
      · obtain ⟨e1, e2, -⟩ := runListens_of_Spent b mid ops2 fin css2 hsp h2
        subst e1 e2
        rfl
    refine ⟨hmap, ?_⟩
    intro cs hcs c hc
    rw [hmap, List.mem_map] at hcs
    obtain ⟨op, -, hop⟩ := hcs
    subst hop
    exact laterCalls_no_setup b fd op.2 c hc
  · intro hb ops2
    subst hb
    obtain ⟨fin, css2, h2, -⟩ := runListens_posix_total ops2 mid
    exact ⟨fin, css2, h2⟩

/-- Witness for `Listen_after_setup_no_create_no_bind`: a WINDOWS listener whose
first call set up descriptor 3 and accepted a client. -/
theorem Listen_after_setup_no_create_no_bind_witness :
    (construct .windows true "8080" 1 resolved = .ok windowsServer ∧
     runListens .windows windowsServer [(0, allOk)]
       = some (windowsListening,
           [[Call.socket 2 1 6 3, Call.bind 3, Call.freeaddrinfo, Call.listen 3,
             Call.accept 3]]) ∧
     Call.accept 3 ∈ [[Call.socket 2 1 6 3, Call.bind 3, Call.freeaddrinfo, Call.listen 3,
             Call.accept 3]].flatten) ∧
    ∀ ops2 fin css2, runListens .windows windowsListening ops2 = some (fin, css2) →
      css2 = ops2.map (fun op => laterCalls .windows 3 op.2) ∧
      ∀ cs ∈ css2, ∀ c ∈ cs, isSetup c = false :=
  ⟨⟨rfl, by decide, by decide⟩,
   (Listen_after_setup_no_create_no_bind .windows true "8080" 1 resolved windowsServer
      windowsListening [(0, allOk)]
      [[Call.socket 2 1 6 3, Call.bind 3, Call.freeaddrinfo, Call.listen 3, Call.accept 3]]
      3 rfl (by decide) (by decide)).1⟩

/-! ## C8 : who closes the server descriptor -/

/-- C8, as stated, fails: on the WINDOWS branch a `Listen` call whose `bind` fails
closes the descriptor 3 it created; over the whole lifetime that is the only close of
3, and the destructor closes the sentinel. -/
theorem Listen_windows_failed_bind_closes_descriptor :
    (Listen .windows windowsServer 0 { allOk with bindOk := false }).map (fun r => r.calls)
      = some [Call.socket 2 1 6 3, Call.bind 3, Call.freeaddrinfo, Call.close 3] ∧
    lifetime .windows true "8080" 1 resolved [(0, { allOk with bindOk := false })]
      = some [Call.socket 2 1 6 3, Call.bind 3, Call.freeaddrinfo, Call.close 3,
              Call.close INVALID_SOCKET] := by
  constructor <;> decide

/-- C8, amended: over every lifetime (construction, any finite sequence of `Listen`
calls with defined behaviour, destruction) every server descriptor returned by a
successful `socket()` is closed exactly once: none is left unclosed, none is closed
twice.  On the non-WINDOWS branch every lifetime is defined, no `Listen` call closes
anything, and the close is the destructor's.  On the WINDOWS branch a `Listen` call
that fails at its bind or listen step closes the descriptor itself and resets
`m_ListenSocket`. -/
theorem lifetime_closes_each_descriptor_once :
    (∀ b le strPort eSettings gai ops tr,
      lifetime b le strPort eSettings gai ops = some tr →
      ∀ fd af ty pr, Call.socket af ty pr fd ∈ tr → fd ≠ INVALID_SOCKET →
        tr.count (Call.close fd) = 1) ∧
    (∀ le strPort eSettings gai ops, ∃ self fin css,
      construct .posix le strPort eSettings gai = .ok self ∧
      runListens .posix self ops = some (fin, css) ∧
      (∀ c ∈ css.flatten, isClose c = false) ∧
      lifetime .posix le strPort eSettings gai ops
        = some (css.flatten ++ [Call.close fin.m_ListenSocket])) ∧
    (∀ self init o r fd, Listen .windows self init o = some r →
      ((Call.bind fd ∈ r.calls ∧ o.bindOk = false) ∨
       (Call.listen fd ∈ r.calls ∧ o.listenOk = false)) →
      Call.close fd ∈ r.calls ∧ r.self.m_ListenSocket = INVALID_SOCKET ∧
        r.ret = false) := by
  refine ⟨?_, ?_, ?_⟩
  · intro b le strPort eSettings gai ops tr h fd af ty pr hm hne
    unfold lifetime at h
    cases hc : construct b le strPort eSettings gai with
    | error msg =>
      simp only [hc, Option.some.injEq] at h
      subst h
      simp at hm
    | ok self =>
      simp only [hc] at h
      cases hr : runListens b self ops with
      | none => simp [hr] at h
      | some p =>
        obtain ⟨fin, css⟩ := p
        simp only [hr, Option.some.injEq] at h
        subst h
        have hinv := construct_listen_socket b le strPort eSettings gai self hc
        have hm2 : Call.socket af ty pr fd ∈ css.flatten := by
          simpa [destroy] using hm
        exact (runListens_of_fresh b ops self fin css hinv hr).1 fd af ty pr hm2 hne
  · intro le strPort eSettings gai ops
    obtain ⟨self, hc, -⟩ : ∃ self, construct .posix le strPort eSettings gai = .ok self ∧
        True := ⟨_, rfl, trivial⟩
    obtain ⟨fin, css, hr, hcl⟩ := runListens_posix_total ops self
    exact ⟨self, fin, css, hc, hr, hcl, by simp [lifetime, hc, hr, destroy]⟩
  · intro self init o r fd h hf
    exact ListenWindows_failure_closes self init o r fd h hf

/-- Witness for `lifetime_closes_each_descriptor_once`: the WINDOWS lifetime whose
only `Listen` call fails at `bind`. -/
theorem lifetime_closes_each_descriptor_once_witness :
    (lifetime .windows true "8080" 1 resolved [(0, { allOk with bindOk := false })]
       = some [Call.socket 2 1 6 3, Call.bind 3, Call.freeaddrinfo, Call.close 3,
               Call.close INVALID_SOCKET] ∧
     Call.socket 2 1 6 3 ∈ [Call.socket 2 1 6 3, Call.bind 3, Call.freeaddrinfo,
               Call.close 3, Call.close INVALID_SOCKET] ∧
     (3 : Int) ≠ INVALID_SOCKET) ∧
    [Call.socket 2 1 6 3, Call.bind 3, Call.freeaddrinfo, Call.close 3,
      Call.close INVALID_SOCKET].count (Call.close 3) = 1 :=
  ⟨⟨by decide, by decide, by decide⟩,
   lifetime_closes_each_descriptor_once.1 .windows true "8080" 1 resolved
     [(0, { allOk with bindOk := false })] _ (by decide) 3 2 1 6 (by decide) (by decide)⟩

end SocketCpp
